import Mathlib

/-!
Shallow embedding of the signal/intent scoring core of the ai-sdr-backend
repository: the `DefectionDetector` class (defection.detector.js) and the
three-tier lead scorer `scoreLead` (supabase/functions/api/index.ts).
Text is modelled as `List Char`; JavaScript's `String.prototype.indexOf`
is modelled by `jsIndexOf` returning `Option Nat` instead of `-1`.
-/

/-- The apostrophe character (U+0027), used inside several lexicon phrases. -/
def apos : Char := Char.ofNat 39

/-- JS `text.toLowerCase()` restricted to the ASCII range used by the lexicons. -/
def toLowerStr (s : List Char) : List Char := s.map Char.toLower

/-- JS `hay.indexOf(needle)`: index of the first occurrence of `needle` in
`hay`, `none` when absent (the source's `-1`). -/
def jsIndexOf : List Char → List Char → Option Nat
  | hay, needle =>
    if needle.isPrefixOf hay then some 0
    else
      match hay with
      | [] => none
      | _ :: t => (jsIndexOf t needle).map (· + 1)

/-- JS `hay.includes(needle)`. -/
def jsIncludes (hay needle : List Char) : Bool := (jsIndexOf hay needle).isSome

/-- One value of the keyword map: `{ weight, category }`. -/
structure KeywordConfig where
  weight : Nat
  category : String
deriving DecidableEq, Repr

/-- One element of the `excerpts` array: `{ keyword, excerpt, position }`. -/
structure Excerpt where
  keyword : List Char
  excerpt : List Char
  position : Nat
deriving DecidableEq, Repr

/-- The detector's constructor-resolved configuration: `keywords` keeps the
object's insertion order as a list of `(phrase, {weight, category})` pairs. -/
structure DetectorConfig where
  keywords : List (List Char × KeywordConfig)
  caseSensitive : Bool
  minKeywordMatches : Nat
  contextWindow : Nat

/-- The object returned by `analyze`.  The early-return baseline object has no
`matchCount` key, hence `Option Nat`. -/
structure AnalysisResult where
  hasDefectionSignal : Bool
  score : Nat
  keywords : List (List Char)
  categories : List (String × List (List Char))
  excerpts : List Excerpt
  sentiment : String
  matchCount : Option Nat
deriving DecidableEq, Repr

/-- The baseline object returned when `!text || text.length < 10`. -/
def emptyResult : AnalysisResult :=
  AnalysisResult.mk false 0 [] [] [] "neutral" none

/-- JS `String.prototype.trim`. -/
def trimStr (s : List Char) : List Char :=
  ((s.dropWhile Char.isWhitespace).reverse.dropWhile Char.isWhitespace).reverse

/-- Key-presence test on the `categories` object.  The source tests the
truthiness of `categories[c]`; values are always non-empty arrays, so
truthiness coincides with key presence. -/
def hasCat (cats : List (String × List (List Char))) (c : String) : Bool :=
  cats.any (fun p => p.1 = c)

/-- `categories[config.category].push(keyword)`, creating the key when absent.
Key insertion order (JS object property order) is preserved. -/
def addToCategories (cats : List (String × List (List Char))) (c : String)
    (k : List Char) : List (String × List (List Char)) :=
  if hasCat cats c then
    cats.map (fun p => if p.1 = c then (p.1, p.2 ++ [k]) else p)
  else
    cats ++ [(c, [k])]

/-- `DefectionDetector.calculateScore(totalWeight, matchCount, categories)`.
The source's successive `score += …` statements accumulate into this sum;
each conditional `+=` becomes one `if … then k else 0` addend. -/
def calculateScore (totalWeight matchCount : Nat)
    (categories : List (String × List (List Char))) : Nat :=
  let base := min 50 (totalWeight * 5)
  let matchBonus :=
    (if 3 ≤ matchCount then 15 else 0) + (if 5 ≤ matchCount then 10 else 0)
  let categoryCount := categories.length
  let categoryBonus :=
    (if 2 ≤ categoryCount then 10 else 0) + (if 3 ≤ categoryCount then 10 else 0)
  let comboBonus :=
    (if hasCat categories "switching" && hasCat categories "pain" then 10 else 0) +
    (if hasCat categories "churn" && hasCat categories "alternative" then 15 else 0) +
    (if hasCat categories "switching" && hasCat categories "timeline" then 10 else 0)
  min 100 (base + matchBonus + categoryBonus + comboBonus)

/-- `DefectionDetector.determineSentiment(categories)`. -/
def determineSentiment (cats : List (String × List (List Char))) : String :=
  let hasNegative := hasCat cats "pain" || hasCat cats "churn"
  let hasPositive := hasCat cats "switching" || hasCat cats "alternative"
  if hasNegative && hasPositive then "mixed_defection"
  else if hasNegative then "negative"
  else if hasPositive then "seeking_alternative"
  else "neutral"

/-- `DefectionDetector.extractExcerpt(text, position, keywordLength)`.
`Math.max(0, position - contextWindow)` is truncated `Nat` subtraction. -/
def extractExcerpt (contextWindow : Nat) (text : List Char)
    (position keywordLength : Nat) : List Char :=
  let start := position - contextWindow
  let stop := min text.length (position + keywordLength + contextWindow)
  let excerpt := (text.take stop).drop start
  let excerpt := if 0 < start then ("...".data) ++ excerpt else excerpt
  let excerpt := if stop < text.length then excerpt ++ ("...".data) else excerpt
  trimStr excerpt

/-- Accumulator of `analyze`'s keyword loop. -/
structure ScanState where
  matchedKeywords : List (List Char)
  totalWeight : Nat
  cats : List (String × List (List Char))
  excerpts : List Excerpt
deriving Repr

/-- The search needle of one loop iteration:
`this.caseSensitive ? text : keyword.toLowerCase()`. -/
def searchOf (cfg : DetectorConfig) (text : List Char)
    (e : List Char × KeywordConfig) : List Char :=
  if cfg.caseSensitive then text else toLowerStr e.1

/-- `this.caseSensitive ? text : text.toLowerCase()`. -/
def normOf (cfg : DetectorConfig) (text : List Char) : List Char :=
  if cfg.caseSensitive then text else toLowerStr text

/-- One iteration of the `for (const [keyword, config] of ...)` loop. -/
def scanStep (cfg : DetectorConfig) (text normText : List Char)
    (st : ScanState) (e : List Char × KeywordConfig) : ScanState :=
  match jsIndexOf normText (searchOf cfg text e) with
  | none => st
  | some idx =>
      ScanState.mk (st.matchedKeywords ++ [e.1]) (st.totalWeight + e.2.weight)
        (addToCategories st.cats e.2.category e.1)
        (st.excerpts ++
          [Excerpt.mk e.1 (extractExcerpt cfg.contextWindow text idx e.1.length) idx])

/-- `DefectionDetector.analyze(text)` for a string argument.  For strings the
guard `!text || text.length < 10` is equivalent to `text.length < 10`. -/
def analyze (cfg : DetectorConfig) (text : List Char) : AnalysisResult :=
  if text.length < 10 then emptyResult
  else
    let normalizedText := normOf cfg text
    let st := cfg.keywords.foldl (scanStep cfg text normalizedText)
      (ScanState.mk [] 0 [] [])
    let score := calculateScore st.totalWeight st.matchedKeywords.length st.cats
    let hasDefectionSignal :=
      cfg.minKeywordMatches ≤ st.matchedKeywords.length && 30 ≤ score
    AnalysisResult.mk hasDefectionSignal score st.matchedKeywords st.cats st.excerpts
      (determineSentiment st.cats) (some st.matchedKeywords.length)

/-- `DefectionDetector.getDefaultKeywords()`, in source (insertion) order. -/
def defaultKeywords : List (List Char × KeywordConfig) :=
  [ ("switching from".data, KeywordConfig.mk 5 "switching"),
    ("switch from".data, KeywordConfig.mk 5 "switching"),
    ("switching to".data, KeywordConfig.mk 4 "switching"),
    ("switched to".data, KeywordConfig.mk 4 "switching"),
    ("moved to".data, KeywordConfig.mk 4 "switching"),
    ("migrating to".data, KeywordConfig.mk 5 "switching"),
    ("moving away from".data, KeywordConfig.mk 5 "switching"),
    ("left for".data, KeywordConfig.mk 5 "switching"),
    ("looking for alternative".data, KeywordConfig.mk 4 "alternative"),
    ("evaluating alternatives".data, KeywordConfig.mk 4 "alternative"),
    ("considering alternatives".data, KeywordConfig.mk 4 "alternative"),
    ("exploring options".data, KeywordConfig.mk 3 "alternative"),
    ("better alternative".data, KeywordConfig.mk 3 "alternative"),
    ("cheaper alternative".data, KeywordConfig.mk 3 "alternative"),
    ("alternative to".data, KeywordConfig.mk 3 "alternative"),
    ("looking to replace".data, KeywordConfig.mk 4 "replacement"),
    ("need to replace".data, KeywordConfig.mk 4 "replacement"),
    ("replacing with".data, KeywordConfig.mk 4 "replacement"),
    ("replace with".data, KeywordConfig.mk 3 "replacement"),
    ("tired of".data, KeywordConfig.mk 4 "pain"),
    ("fed up with".data, KeywordConfig.mk 4 "pain"),
    ("sick of".data, KeywordConfig.mk 4 "pain"),
    ("frustrated with".data, KeywordConfig.mk 4 "pain"),
    ("hate using".data, KeywordConfig.mk 4 "pain"),
    ("unhappy with".data, KeywordConfig.mk 3 "pain"),
    ("dissatisfied with".data, KeywordConfig.mk 3 "pain"),
    ("disappointed with".data, KeywordConfig.mk 3 "pain"),
    ("regret choosing".data, KeywordConfig.mk 4 "pain"),
    ("waste of money".data, KeywordConfig.mk 4 "pain"),
    ("not worth the".data, KeywordConfig.mk 3 "pain"),
    ("problems with".data, KeywordConfig.mk 3 "pain"),
    ("issues with".data, KeywordConfig.mk 3 "pain"),
    ("constantly crashes".data, KeywordConfig.mk 3 "pain"),
    ("buggy".data, KeywordConfig.mk 2 "pain"),
    ("unreliable".data, KeywordConfig.mk 3 "pain"),
    ("terrible support".data, KeywordConfig.mk 3 "pain"),
    ("poor customer service".data, KeywordConfig.mk 3 "pain"),
    ("canceling subscription".data, KeywordConfig.mk 5 "churn"),
    ("cancelled subscription".data, KeywordConfig.mk 5 "churn"),
    ("not renewing".data, KeywordConfig.mk 5 "churn"),
    ("won".data ++ [apos] ++ "t renew".data, KeywordConfig.mk 5 "churn"),
    ("subscription ending".data, KeywordConfig.mk 4 "churn"),
    ("leaving for".data, KeywordConfig.mk 5 "churn"),
    ("stopped using".data, KeywordConfig.mk 4 "churn"),
    ("done with".data, KeywordConfig.mk 4 "churn"),
    ("need something asap".data, KeywordConfig.mk 3 "timeline"),
    ("immediately".data, KeywordConfig.mk 3 "timeline"),
    ("this quarter".data, KeywordConfig.mk 2 "timeline"),
    ("end of month".data, KeywordConfig.mk 2 "timeline"),
    ("next month".data, KeywordConfig.mk 2 "timeline"),
    ("comparing with".data, KeywordConfig.mk 3 "comparison"),
    ("versus".data, KeywordConfig.mk 3 "comparison"),
    ("vs".data, KeywordConfig.mk 2 "comparison"),
    ("looking at".data, KeywordConfig.mk 2 "comparison") ]

/-- The constructor's defaults: default keywords, case-insensitive,
`minKeywordMatches = 1`, `contextWindow = 100`. -/
def defaultConfig : DetectorConfig :=
  DetectorConfig.mk defaultKeywords false 1 100

/-! ### Three-tier lead scorer `scoreLead` (supabase/functions/api/index.ts) -/

/-- The `hotSignals` array of `scoreLead`. -/
def hotSignals : List (List Char) :=
  [ "urgent".data, "asap".data, "immediately".data, "this week".data,
    "today".data, "hiring now".data, "start asap".data, "$50k".data,
    "$100k".data, "$500k".data, "budget approved".data, "series a".data,
    "series b".data, "decision made".data ]

/-- The `warmSignals` array of `scoreLead`. -/
def warmSignals : List (List Char) :=
  [ "interested".data, "looking for".data, "seeking".data, "considering".data,
    "evaluation".data, "comparing".data, "quote".data, "proposal".data ]

/-- The `{ score, confidence, reason }` object returned by `scoreLead`. -/
structure LeadScore where
  score : String
  confidence : Nat
  reason : String
deriving DecidableEq, Repr

/-- `hotSignals.filter(s => lower.includes(s)).length`. -/
def hotCountOf (text : List Char) : Nat :=
  (hotSignals.filter (fun s => jsIncludes (toLowerStr text) s)).length

/-- `warmSignals.filter(s => lower.includes(s)).length`. -/
def warmCountOf (text : List Char) : Nat :=
  (warmSignals.filter (fun s => jsIncludes (toLowerStr text) s)).length

/-- Whether the budget regex `\$[\d,]+(?:k|K)?` matches: a dollar sign
followed by at least one digit or comma (the optional suffix cannot affect
whether a match exists). -/
def budgetMatchExists : List Char → Bool
  | c1 :: c2 :: rest =>
      (c1 = '$' && (c2.isDigit || c2 = ',')) || budgetMatchExists (c2 :: rest)
  | _ => false

/-- `scoreLead(text)`.  In the source, `const budgetMatch = text.match(...)`
is computed between the counts and the thresholds but is never read
afterwards, so it does not appear in the returned value. -/
def scoreLead (text : List Char) : LeadScore :=
  let lower := toLowerStr text
  let hotCount := (hotSignals.filter (fun s => jsIncludes lower s)).length
  let warmCount := (warmSignals.filter (fun s => jsIncludes lower s)).length
  if 2 ≤ hotCount then LeadScore.mk "hot" 90 "Strong buying signals detected"
  else if 1 ≤ hotCount || 2 ≤ warmCount then
    LeadScore.mk "warm" 75 "Moderate interest detected"
  else LeadScore.mk "cold" 50 "No strong signals"

/-- The three-tier rule exactly as claim C4 words it: the budget-pattern
regex match is added as a bonus to the hot count before thresholding.
Stated from the spec's words, to be compared with `scoreLead`. -/
def specThreeTierWithBonus (text : List Char) : String :=
  let hotCount := hotCountOf text + (if budgetMatchExists text then 1 else 0)
  if 2 ≤ hotCount then "hot"
  else if 1 ≤ hotCount || 2 ≤ warmCountOf text then "warm"
  else "cold"

/-- The three-tier thresholds without any budget bonus (the amended claim),
stated independently of `scoreLead` for comparison. -/
def specThreeTier (text : List Char) : String :=
  if 2 ≤ hotCountOf text then "hot"
  else if 1 ≤ hotCountOf text || 2 ≤ warmCountOf text then "warm"
  else "cold"

/-! ### Dynamically-typed call model for `analyze` (claim C5) -/

/-- JavaScript values a caller can pass as the `text` argument. -/
inductive JSVal where
  | str : List Char → JSVal
  | num : Int → JSVal
  | nanV : JSVal
  | boolean : Bool → JSVal
  | nullV : JSVal
  | undefinedV : JSVal
deriving DecidableEq, Repr

/-- JavaScript falsiness of a `JSVal`. -/
def falsy : JSVal → Bool
  | JSVal.str s => s.isEmpty
  | JSVal.num n => n = 0
  | JSVal.nanV => true
  | JSVal.boolean b => !b
  | JSVal.nullV => true
  | JSVal.undefinedV => true

/-- The only runtime error the source can raise in `analyze`. -/
inductive JSError where
  | typeError : String → JSError
deriving DecidableEq, Repr

/-- `analyze(text)` on an arbitrary JS value.  `!text` short-circuits every
falsy value to the baseline.  A truthy non-string has no `length` property,
`undefined < 10` is `false`, so execution reaches
`text.toLowerCase()` and raises a `TypeError`; there is no validation code. -/
def analyzeJS (cfg : DetectorConfig) (v : JSVal) : Except JSError AnalysisResult :=
  if falsy v then Except.ok emptyResult
  else
    match v with
    | JSVal.str s => Except.ok (analyze cfg s)
    | _ => Except.error (JSError.typeError "text.toLowerCase is not a function")

/-! ### Reference score formula (claim C1) -/

/-- The score exactly as claim C1 words it, for the default lexicon:
`min(50, totalWeight × 5)` over the matched phrases, match-count bonuses,
category-diversity bonuses, the three combination bonuses, clamped to 100.
Stated from the spec's words, to be compared with `analyze`. -/
def specScore (text : List Char) : Nat :=
  let matched := defaultKeywords.filter
    (fun e => (jsIndexOf (toLowerStr text) (toLowerStr e.1)).isSome)
  let totalWeight := (matched.map (fun e => e.2.weight)).sum
  let phraseCount := (matched.map (fun e => e.1)).dedup.length
  let cats := (matched.map (fun e => e.2.category)).dedup
  let base := min 50 (totalWeight * 5)
  let matchBonus :=
    (if 3 ≤ phraseCount then 15 else 0) + (if 5 ≤ phraseCount then 10 else 0)
  let catBonus :=
    (if 2 ≤ cats.length then 10 else 0) + (if 3 ≤ cats.length then 10 else 0)
  let comboBonus :=
    (if "switching" ∈ cats ∧ "pain" ∈ cats then 10 else 0) +
    (if "churn" ∈ cats ∧ "alternative" ∈ cats then 15 else 0) +
    (if "switching" ∈ cats ∧ "timeline" ∈ cats then 10 else 0)
  min 100 (base + matchBonus + catBonus + comboBonus)

/-! ### Extraction helpers (claims C8, C9) -/

/-- First-occurrence-keeping deduplication, the order `[...new Set(xs)]`
produces; `seen` accumulates the values already emitted. -/
def jsSetDedupAux : List (List Char) → List (List Char) → List (List Char)
  | _, [] => []
  | seen, a :: l =>
      if a ∈ seen then jsSetDedupAux seen l
      else a :: jsSetDedupAux (a :: seen) l

/-- `[...new Set(xs)]`. -/
def jsSetDedup (l : List (List Char)) : List (List Char) := jsSetDedupAux [] l

/-- Length of the maximal run of characters matching `[^.]` at the front. -/
def runLen : List Char → Nat
  | [] => 0
  | c :: t => if c = '.' then 0 else runLen t + 1

/-- One plus the index of the last `!` or `?`, i.e. the number of characters
consumed when the greedy `[^.]*` backtracks to the last `[!?]` terminator. -/
def lastTermEnd : List Char → Option Nat
  | [] => none
  | c :: t =>
      match lastTermEnd t with
      | some k => some (k + 1)
      | none => if c = '!' || c = '?' then some 1 else none

/-- Number of characters `[^.]*[.!?]` consumes from `rest`, greedily with
backtracking: the maximal dot-free run ends either at a `.` (consumed), or
at end of input, in which case the match backtracks to the last `!`/`?`. -/
def bodyEndLen (rest : List Char) : Option Nat :=
  let r := runLen rest
  if r < rest.length then some (r + 1)
  else lastTermEnd rest

/-- Try the alternation `(?:a₁|a₂|…)` (case-insensitively) at the head of
`s` followed by `[^.]*[.!?]`; returns the total matched length of the first
alternative that lets the whole pattern match, as the regex engine does. -/
def tryAlts (alts : List (List Char)) (s : List Char) : Option Nat :=
  match alts with
  | [] => none
  | a :: rest =>
      if a.isPrefixOf (toLowerStr s) then
        match bodyEndLen (s.drop a.length) with
        | some b => some (a.length + b)
        | none => tryAlts rest s
      else tryAlts rest s

/-- Global scan of `text.match(/pattern/g)`: leftmost matches, resuming
after each match.  `fuel` only bounds the recursion; it starts at
`length + 1` and every step consumes at least one character. -/
def scanRegex : Nat → List (List Char) → List Char → List (List Char)
  | 0, _, _ => []
  | fuel + 1, alts, s =>
      match tryAlts alts s with
      | some len => s.take len :: scanRegex fuel alts (s.drop len)
      | none =>
          match s with
          | [] => []
          | _ :: t => scanRegex (fuel + 1 - 1) alts t

/-- `text.match(/(?:alts)[^.]*[.!?]/gi)`, as a list (empty when `null`). -/
def jsMatchAll (alts : List (List Char)) (text : List Char) : List (List Char) :=
  scanRegex (text.length + 1) alts text

/-- Alternatives of the four `painPatterns` regexes, in source order. -/
def painAlts1 : List (List Char) :=
  [ "problem".data, "issue".data, "pain".data, "struggle".data,
    "difficult".data, "hard to".data, "can".data ++ [apos] ++ "t".data,
    "cannot".data, "unable to".data ]

def painAlts2 : List (List Char) :=
  [ "wish".data, "would be nice".data, "need".data, "missing".data,
    "lacking".data, "doesn".data ++ [apos] ++ "t have".data ]

def painAlts3 : List (List Char) :=
  [ "too expensive".data, "costly".data, "overpriced".data, "not worth".data ]

def painAlts4 : List (List Char) :=
  [ "slow".data, "laggy".data, "crashes".data, "bugs".data,
    "glitches".data, "unstable".data ]

/-- The trimmed matches of the four pain patterns, in pattern order. -/
def rawPainPoints (text : List Char) : List (List Char) :=
  (jsMatchAll painAlts1 text ++ jsMatchAll painAlts2 text ++
   jsMatchAll painAlts3 text ++ jsMatchAll painAlts4 text).map trimStr

/-- `DefectionDetector.extractPainPoints(text)`:
`[...new Set(painPoints)].slice(0, 5)`. -/
def extractPainPoints (text : List Char) : List (List Char) :=
  (jsSetDedup (rawPainPoints text)).take 5

/-- Alternatives of the three `featurePatterns` regexes, in source order. -/
def featAlts1 : List (List Char) :=
  [ "wish it had".data, "would love".data, "need".data, "missing".data,
    "should have".data, "could use".data ]

def featAlts2 : List (List Char) :=
  [ "feature".data, "functionality".data, "capability".data,
    "option".data, "setting".data ]

def featAlts3 : List (List Char) :=
  [ "integrate".data, "integration".data, "connect".data,
    "sync".data, "api".data ]

/-- The trimmed matches of the three feature patterns, in pattern order. -/
def rawDesiredFeatures (text : List Char) : List (List Char) :=
  (jsMatchAll featAlts1 text ++ jsMatchAll featAlts2 text ++
   jsMatchAll featAlts3 text).map trimStr

/-- `DefectionDetector.extractDesiredFeatures(text)`. -/
def extractDesiredFeatures (text : List Char) : List (List Char) :=
  (jsSetDedup (rawDesiredFeatures text)).take 5

/-! ### Stage detection (claim C9) -/

/-- JS regex word characters `\w = [A-Za-z0-9_]`. -/
def isWordChar (c : Char) : Bool := c.isAlphanum || c = '_'

/-- Word-character-ness of `text[i]`, out-of-range counting as non-word. -/
def isWordAt (text : List Char) (i : Nat) : Bool :=
  match text.get? i with
  | some c => isWordChar c
  | none => false

/-- The `\b` assertion holds at offset `i` of `text`. -/
def boundaryAt (text : List Char) (i : Nat) : Bool :=
  (if i = 0 then false else isWordAt text (i - 1)) != isWordAt text i

/-- `/\b p \b/.test(text)`: some occurrence of `p` with word boundaries at
both ends. -/
def wbContains (text p : List Char) : Bool :=
  (List.range (text.length + 1)).any (fun i =>
    p.isPrefixOf (text.drop i) && boundaryAt text i && boundaryAt text (i + p.length))

/-- Alternatives of the `implemented` stage regex. -/
def implementedPats : List (List Char) :=
  [ "switched to".data, "moved to".data, "migrated to".data,
    "now using".data, "currently using".data, "we use".data ]

/-- Alternatives of the `decided` stage regex. -/
def decidedPats : List (List Char) :=
  [ "decided to".data, "choosing".data, "going with".data,
    "will be using".data, "plan to use".data ]

/-- Alternatives of the `evaluating` stage regex. -/
def evaluatingPats : List (List Char) :=
  [ "evaluating".data, "comparing".data, "testing".data,
    "trial".data, "demo".data, "poc".data, "pilot".data ]

/-- Alternatives of the `researching` stage regex. -/
def researchingPats : List (List Char) :=
  [ "looking for".data, "considering".data, "exploring".data,
    "researching".data, "interested in".data ]

/-- `DefectionDetector.detectStage(text)`: the four word-boundary regexes
tested in priority order on the lowercased text. -/
def detectStage (text : List Char) : String :=
  let lowerText := toLowerStr text
  if implementedPats.any (fun p => wbContains lowerText p) then "implemented"
  else if decidedPats.any (fun p => wbContains lowerText p) then "decided"
  else if evaluatingPats.any (fun p => wbContains lowerText p) then "evaluating"
  else if researchingPats.any (fun p => wbContains lowerText p) then "researching"
  else "unknown"

/-! ### Helper lemmas -/

lemma jsIndexOf_self (l : List Char) : jsIndexOf l l = some 0 := by
  unfold jsIndexOf
  simp [List.isPrefixOf_iff_prefix]

/-- The key list of the `categories` object, in insertion order. -/
def catKeys (cats : List (String × List (List Char))) : List String := cats.map Prod.fst

lemma hasCat_eq_true_iff (cats : List (String × List (List Char))) (c : String) :
    hasCat cats c = true ↔ c ∈ catKeys cats := by
  simp only [hasCat, catKeys, List.any_eq_true, List.mem_map, decide_eq_true_eq]

lemma catKeys_addToCategories (cats : List (String × List (List Char))) (c : String)
    (k : List Char) :
    catKeys (addToCategories cats c k) =
      if c ∈ catKeys cats then catKeys cats else catKeys cats ++ [c] := by
  unfold addToCategories
  cases h : hasCat cats c with
  | true =>
      rw [if_pos ((hasCat_eq_true_iff cats c).mp h)]
      simp only [h, if_true, catKeys, List.map_map]
      apply List.map_congr_left
      intro p _
      by_cases hc : p.1 = c <;> simp [hc]
  | false =>
      have : c ∉ catKeys cats := fun hm => by
        have := (hasCat_eq_true_iff cats c).mpr hm; rw [h] at this; exact Bool.noConfusion this
      rw [if_neg this]
      simp [h, catKeys]

/-- The `categories` accumulation over a list of matched entries. -/
def buildCats (init : List (String × List (List Char)))
    (l : List (List Char × KeywordConfig)) : List (String × List (List Char)) :=
  l.foldl (fun cs e => addToCategories cs e.2.category e.1) init

lemma mem_catKeys_buildCats (l : List (List Char × KeywordConfig)) :
    ∀ (init : List (String × List (List Char))) (c : String),
    c ∈ catKeys (buildCats init l) ↔
      c ∈ catKeys init ∨ c ∈ l.map (fun e => e.2.category) := by
  induction l with
  | nil => intro init c; simp [buildCats]
  | cons e t ih =>
      intro init c
      have : buildCats init (e :: t) = buildCats (addToCategories init e.2.category e.1) t := rfl
      rw [this, ih]
      rw [catKeys_addToCategories]
      by_cases h : e.2.category ∈ catKeys init
      · rw [if_pos h]
        simp only [List.map_cons, List.mem_cons]
        constructor
        · rintro (h1 | h2)
          · exact Or.inl h1
          · exact Or.inr (Or.inr h2)
        · rintro (h1 | h2 | h3)
          · exact Or.inl h1
          · exact Or.inl (h2 ▸ h)
          · exact Or.inr h3
      · rw [if_neg h]
        simp only [List.mem_append, List.mem_singleton, List.map_cons, List.mem_cons]
        tauto

lemma catKeys_nodup_buildCats (l : List (List Char × KeywordConfig)) :
    ∀ (init : List (String × List (List Char))), (catKeys init).Nodup →
    (catKeys (buildCats init l)).Nodup := by
  induction l with
  | nil => intro init h; exact h
  | cons e t ih =>
      intro init h
      have : buildCats init (e :: t) = buildCats (addToCategories init e.2.category e.1) t := rfl
      rw [this]
      apply ih
      rw [catKeys_addToCategories]
      by_cases hc : e.2.category ∈ catKeys init
      · rwa [if_pos hc]
      · rw [if_neg hc]
        simp [List.nodup_append, h, hc]

lemma catKeys_length_buildCats (l : List (List Char × KeywordConfig)) :
    (catKeys (buildCats [] l)).length = (l.map (fun e => e.2.category)).dedup.length := by
  have hnd : (catKeys (buildCats [] l)).Nodup :=
    catKeys_nodup_buildCats l [] (by simp [catKeys])
  have hmem : ∀ c, c ∈ catKeys (buildCats [] l) ↔ c ∈ l.map (fun e => e.2.category) := by
    intro c
    rw [mem_catKeys_buildCats]
    simp only [catKeys, List.map_nil, List.not_mem_nil, false_or]
  have hfin : (catKeys (buildCats [] l)).toFinset = (l.map (fun e => e.2.category)).toFinset := by
    ext c
    simp only [List.mem_toFinset]
    exact hmem c
  calc (catKeys (buildCats [] l)).length
      = (catKeys (buildCats [] l)).toFinset.card := (List.toFinset_card_of_nodup hnd).symm
    _ = (l.map (fun e => e.2.category)).toFinset.card := by rw [hfin]
    _ = (l.map (fun e => e.2.category)).dedup.length := List.card_toFinset _

/-- An entry of the keyword map counts as matched in `analyze`'s loop. -/
def entryMatches (cfg : DetectorConfig) (text : List Char)
    (e : List Char × KeywordConfig) : Bool :=
  (jsIndexOf (normOf cfg text) (searchOf cfg text e)).isSome

/-- The first-occurrence position recorded for a matched entry. -/
def posOf (cfg : DetectorConfig) (text : List Char)
    (e : List Char × KeywordConfig) : Nat :=
  (jsIndexOf (normOf cfg text) (searchOf cfg text e)).getD 0

/-- The excerpt record built for a matched entry. -/
def mkExcerpt (cfg : DetectorConfig) (text : List Char)
    (e : List Char × KeywordConfig) : Excerpt :=
  Excerpt.mk e.1 (extractExcerpt cfg.contextWindow text (posOf cfg text e) e.1.length)
    (posOf cfg text e)

lemma scan_foldl (cfg : DetectorConfig) (text : List Char)
    (l : List (List Char × KeywordConfig)) :
    ∀ st : ScanState,
    l.foldl (scanStep cfg text (normOf cfg text)) st =
      ScanState.mk
        (st.matchedKeywords ++ (l.filter (entryMatches cfg text)).map Prod.fst)
        (st.totalWeight + ((l.filter (entryMatches cfg text)).map (fun e => e.2.weight)).sum)
        (buildCats st.cats (l.filter (entryMatches cfg text)))
        (st.excerpts ++ (l.filter (entryMatches cfg text)).map (mkExcerpt cfg text)) := by
  induction l with
  | nil => intro st; simp [buildCats]
  | cons e t ih =>
      intro st
      rw [List.foldl_cons]
      cases h : jsIndexOf (normOf cfg text) (searchOf cfg text e) with
      | none =>
          have hm : entryMatches cfg text e = false := by simp [entryMatches, h]
          have hs : scanStep cfg text (normOf cfg text) st e = st := by
            unfold scanStep; rw [h]
          rw [hs, ih st, List.filter_cons, hm]
          simp
      | some idx =>
          have hm : entryMatches cfg text e = true := by simp [entryMatches, h]
          have hp : posOf cfg text e = idx := by simp [posOf, h]
          have hs : scanStep cfg text (normOf cfg text) st e =
              ScanState.mk (st.matchedKeywords ++ [e.1]) (st.totalWeight + e.2.weight)
                (addToCategories st.cats e.2.category e.1)
                (st.excerpts ++
                  [Excerpt.mk e.1
                    (extractExcerpt cfg.contextWindow text idx e.1.length) idx]) := by
            unfold scanStep; rw [h]
          rw [hs, ih, List.filter_cons, hm]
          simp [ScanState.mk.injEq, mkExcerpt, hp, buildCats, Nat.add_assoc,
            List.append_assoc]

/-- The keyword-map entries `analyze` matches on a given text. -/
def matchedEntries (cfg : DetectorConfig) (text : List Char) :
    List (List Char × KeywordConfig) :=
  cfg.keywords.filter (entryMatches cfg text)

lemma analyze_long (cfg : DetectorConfig) (text : List Char) (h : ¬ text.length < 10) :
    analyze cfg text =
      AnalysisResult.mk
        (decide (cfg.minKeywordMatches ≤ (matchedEntries cfg text).length) &&
         decide (30 ≤ calculateScore ((matchedEntries cfg text).map (fun e => e.2.weight)).sum
            (matchedEntries cfg text).length (buildCats [] (matchedEntries cfg text))))
        (calculateScore ((matchedEntries cfg text).map (fun e => e.2.weight)).sum
          (matchedEntries cfg text).length (buildCats [] (matchedEntries cfg text)))
        ((matchedEntries cfg text).map Prod.fst)
        (buildCats [] (matchedEntries cfg text))
        ((matchedEntries cfg text).map (mkExcerpt cfg text))
        (determineSentiment (buildCats [] (matchedEntries cfg text)))
        (some (matchedEntries cfg text).length) := by
  unfold analyze
  rw [if_neg h]
  simp [scan_foldl, matchedEntries]

/-- `calculateScore` restated over the flat list of matched categories
(instead of the key-indexed `categories` object). -/
def scoreFormula (tw pc : Nat) (catList : List String) : Nat :=
  min 100 (min 50 (tw * 5) +
    ((if 3 ≤ pc then 15 else 0) + (if 5 ≤ pc then 10 else 0)) +
    ((if 2 ≤ catList.dedup.length then 10 else 0) +
     (if 3 ≤ catList.dedup.length then 10 else 0)) +
    ((if "switching" ∈ catList ∧ "pain" ∈ catList then 10 else 0) +
     (if "churn" ∈ catList ∧ "alternative" ∈ catList then 15 else 0) +
     (if "switching" ∈ catList ∧ "timeline" ∈ catList then 10 else 0)))

lemma hasCat_buildCats_eq_decide (M : List (List Char × KeywordConfig)) (c : String) :
    hasCat (buildCats [] M) c = decide (c ∈ M.map (fun e => e.2.category)) := by
  by_cases hP : c ∈ M.map (fun e => e.2.category)
  · rw [decide_eq_true hP]
    rw [hasCat_eq_true_iff, mem_catKeys_buildCats]
    exact Or.inr hP
  · rw [decide_eq_false hP]
    rw [Bool.eq_false_iff]
    intro hc
    have := (hasCat_eq_true_iff _ _).mp hc
    rw [mem_catKeys_buildCats] at this
    rcases this with h1 | h2
    · simp [catKeys] at h1
    · exact hP h2

lemma calculateScore_eq_formula (tw mc : Nat) (M : List (List Char × KeywordConfig)) :
    calculateScore tw mc (buildCats [] M) =
      scoreFormula tw mc (M.map (fun e => e.2.category)) := by
  have hlen : (buildCats [] M).length = (M.map (fun e => e.2.category)).dedup.length := by
    have h1 := catKeys_length_buildCats M
    have h2 : (catKeys (buildCats [] M)).length = (buildCats [] M).length := by
      simp [catKeys]
    omega
  unfold calculateScore scoreFormula
  simp only [hasCat_buildCats_eq_decide, hlen, Bool.and_eq_true, decide_eq_true_eq]

lemma analyze_below_min (cfg : DetectorConfig) (text : List Char)
    (h : text.length < 10) : analyze cfg text = emptyResult := by
  unfold analyze
  rw [if_pos h]

lemma calculateScore_le_100 (tw mc : Nat) (cats : List (String × List (List Char))) :
    calculateScore tw mc cats ≤ 100 := by
  simp only [calculateScore]
  exact Nat.min_le_left _ _

lemma analyze_score_le_100 (cfg : DetectorConfig) (text : List Char) :
    (analyze cfg text).score ≤ 100 := by
  by_cases h : text.length < 10
  · rw [analyze_below_min cfg text h]
    exact Nat.zero_le _
  · rw [analyze_long cfg text h]
    exact calculateScore_le_100 _ _ _

set_option maxRecDepth 40000 in
lemma defaultKeywords_phrases_nodup : (defaultKeywords.map Prod.fst).Nodup := by decide

lemma scoreFormula_mono (tw tw' pc pc' : Nat) (L L' : List String)
    (htw : tw ≤ tw') (hpc : pc ≤ pc') (hsub : ∀ c, c ∈ L → c ∈ L') :
    scoreFormula tw pc L ≤ scoreFormula tw' pc' L' := by
  have hlen : L.dedup.length ≤ L'.dedup.length := by
    rw [← List.card_toFinset, ← List.card_toFinset]
    apply Finset.card_le_card
    intro x hx
    rw [List.mem_toFinset] at hx ⊢
    exact hsub x hx
  unfold scoreFormula
  have hbase : min 50 (tw * 5) ≤ min 50 (tw' * 5) :=
    min_le_min (le_refl 50) (by omega)
  have h1 : (if 3 ≤ pc then 15 else (0 : Nat)) ≤ (if 3 ≤ pc' then 15 else 0) := by
    split_ifs <;> omega
  have h2 : (if 5 ≤ pc then 10 else (0 : Nat)) ≤ (if 5 ≤ pc' then 10 else 0) := by
    split_ifs <;> omega
  have h3 : (if 2 ≤ L.dedup.length then 10 else (0 : Nat)) ≤
      (if 2 ≤ L'.dedup.length then 10 else 0) := by
    split_ifs <;> omega
  have h4 : (if 3 ≤ L.dedup.length then 10 else (0 : Nat)) ≤
      (if 3 ≤ L'.dedup.length then 10 else 0) := by
    split_ifs <;> omega
  have k1 : (if "switching" ∈ L ∧ "pain" ∈ L then 10 else (0 : Nat)) ≤
      (if "switching" ∈ L' ∧ "pain" ∈ L' then 10 else 0) := by
    split_ifs with ha hb
    · exact le_refl _
    · exact absurd ⟨hsub _ ha.1, hsub _ ha.2⟩ hb
    · exact Nat.zero_le _
    · exact le_refl _
  have k2 : (if "churn" ∈ L ∧ "alternative" ∈ L then 15 else (0 : Nat)) ≤
      (if "churn" ∈ L' ∧ "alternative" ∈ L' then 15 else 0) := by
    split_ifs with ha hb
    · exact le_refl _
    · exact absurd ⟨hsub _ ha.1, hsub _ ha.2⟩ hb
    · exact Nat.zero_le _
    · exact le_refl _
  have k3 : (if "switching" ∈ L ∧ "timeline" ∈ L then 10 else (0 : Nat)) ≤
      (if "switching" ∈ L' ∧ "timeline" ∈ L' then 10 else 0) := by
    split_ifs with ha hb
    · exact le_refl _
    · exact absurd ⟨hsub _ ha.1, hsub _ ha.2⟩ hb
    · exact Nat.zero_le _
    · exact le_refl _
  exact min_le_min (le_refl 100)
    (add_le_add (add_le_add (add_le_add hbase (add_le_add h1 h2)) (add_le_add h3 h4))
      (add_le_add (add_le_add k1 k2) k3))

lemma jsSetDedupAux_sublist (l : List (List Char)) :
    ∀ seen, (jsSetDedupAux seen l).Sublist l := by
  induction l with
  | nil => intro seen; simp [jsSetDedupAux]
  | cons a t ih =>
      intro seen
      unfold jsSetDedupAux
      by_cases h : a ∈ seen
      · rw [if_pos h]
        exact (ih seen).cons a
      · rw [if_neg h]
        exact (ih (a :: seen)).cons₂ a

lemma jsSetDedupAux_not_mem_seen (l : List (List Char)) :
    ∀ seen x, x ∈ jsSetDedupAux seen l → x ∉ seen := by
  induction l with
  | nil => intro seen x hx; simp [jsSetDedupAux] at hx
  | cons a t ih =>
      intro seen x hx
      unfold jsSetDedupAux at hx
      by_cases h : a ∈ seen
      · rw [if_pos h] at hx
        exact ih seen x hx
      · rw [if_neg h] at hx
        rcases List.mem_cons.mp hx with rfl | hx'
        · exact h
        · intro hs
          exact ih (a :: seen) x hx' (List.mem_cons_of_mem a hs)

lemma jsSetDedupAux_nodup (l : List (List Char)) :
    ∀ seen, (jsSetDedupAux seen l).Nodup := by
  induction l with
  | nil => intro seen; simp [jsSetDedupAux]
  | cons a t ih =>
      intro seen
      unfold jsSetDedupAux
      by_cases h : a ∈ seen
      · rw [if_pos h]
        exact ih seen
      · rw [if_neg h]
        refine List.nodup_cons.mpr ⟨?_, ih (a :: seen)⟩
        intro hmem
        exact jsSetDedupAux_not_mem_seen t (a :: seen) a hmem (List.mem_cons_self a seen)

/-! ### Claim theorems -/

/-- C1: for every input text of length at least 10 analyzed against the
default defection lexicon, the score computed by `analyze` equals the
spec's reference definition `specScore`: base `min(50, totalWeight × 5)`
plus match-count, category-diversity and combination bonuses, clamped
to 100. -/
theorem analyze_default_score_eq_specScore (text : List Char)
    (h : 10 ≤ text.length) :
    (analyze defaultConfig text).score = specScore text := by
  have h' : ¬ text.length < 10 := by omega
  rw [analyze_long defaultConfig text h']
  show calculateScore _ _ _ = _
  rw [calculateScore_eq_formula]
  have hM : matchedEntries defaultConfig text =
      defaultKeywords.filter
        (fun e => (jsIndexOf (toLowerStr text) (toLowerStr e.1)).isSome) := rfl
  have hmapnd : ((matchedEntries defaultConfig text).map Prod.fst).Nodup :=
    defaultKeywords_phrases_nodup.sublist ((List.filter_sublist _).map _)
  unfold specScore scoreFormula
  rw [← hM]
  simp only [hmapnd.dedup, List.length_map, List.mem_dedup]

theorem analyze_default_score_eq_specScore_witness :
    10 ≤ ("tired of buggy app".data).length ∧
    (analyze defaultConfig ("tired of buggy app".data)).score =
      specScore ("tired of buggy app".data) :=
  ⟨by decide, analyze_default_score_eq_specScore _ (by decide)⟩

/-- The phrases `analyze` matches, in lexicon iteration order. -/
def matchedPhrases (cfg : DetectorConfig) (text : List Char) : List (List Char) :=
  (matchedEntries cfg text).map Prod.fst

/-- C2: for every text and lexicon (with the object's distinct keys),
`analyze` declares a signal present iff the number of distinct matched
phrases is at least `minKeywordMatches` and the score is at least the
hard-coded threshold 30, with `≥` semantics: score exactly 30 (with enough
matches) is a signal, score 29 is not. -/
theorem analyze_hasSignal_iff_thresholds (cfg : DetectorConfig) (text : List Char)
    (hnd : (cfg.keywords.map Prod.fst).Nodup) :
    ((analyze cfg text).hasDefectionSignal = true ↔
      (cfg.minKeywordMatches ≤ (matchedPhrases cfg text).dedup.length ∧
       30 ≤ (analyze cfg text).score)) ∧
    ((analyze cfg text).score = 30 →
      cfg.minKeywordMatches ≤ (matchedPhrases cfg text).dedup.length →
      (analyze cfg text).hasDefectionSignal = true) ∧
    ((analyze cfg text).score = 29 →
      (analyze cfg text).hasDefectionSignal = false) := by
  have hmapnd : (matchedPhrases cfg text).Nodup :=
    hnd.sublist ((List.filter_sublist _).map _)
  have hlen : (matchedPhrases cfg text).dedup.length = (matchedEntries cfg text).length := by
    rw [hmapnd.dedup]
    exact List.length_map _ _
  have hiff : (analyze cfg text).hasDefectionSignal = true ↔
      (cfg.minKeywordMatches ≤ (matchedPhrases cfg text).dedup.length ∧
       30 ≤ (analyze cfg text).score) := by
    by_cases h : text.length < 10
    · rw [analyze_below_min cfg text h]
      simp [emptyResult]
    · rw [analyze_long cfg text h, hlen]
      simp [Bool.and_eq_true, decide_eq_true_eq]
  refine ⟨hiff, ?_, ?_⟩
  · intro h30 hm
    exact hiff.mpr ⟨hm, by omega⟩
  · intro h29
    cases hb : (analyze cfg text).hasDefectionSignal with
    | false => rfl
    | true =>
        have := hiff.mp hb
        omega

theorem analyze_hasSignal_iff_thresholds_witness :
    (((DetectorConfig.mk [("hello w".data, KeywordConfig.mk 6 "pain")] false 1 100).keywords.map
        Prod.fst).Nodup) ∧
    ((analyze (DetectorConfig.mk [("hello w".data, KeywordConfig.mk 6 "pain")] false 1 100)
        ("hello worldly".data)).hasDefectionSignal = true ↔
      ((DetectorConfig.mk [("hello w".data, KeywordConfig.mk 6 "pain")] false 1 100).minKeywordMatches ≤
        (matchedPhrases (DetectorConfig.mk [("hello w".data, KeywordConfig.mk 6 "pain")] false 1 100)
          ("hello worldly".data)).dedup.length ∧
       30 ≤ (analyze (DetectorConfig.mk [("hello w".data, KeywordConfig.mk 6 "pain")] false 1 100)
          ("hello worldly".data)).score)) ∧
    ((analyze (DetectorConfig.mk [("hello w".data, KeywordConfig.mk 6 "pain")] false 1 100)
        ("hello worldly".data)).score = 30 →
      (DetectorConfig.mk [("hello w".data, KeywordConfig.mk 6 "pain")] false 1 100).minKeywordMatches ≤
        (matchedPhrases (DetectorConfig.mk [("hello w".data, KeywordConfig.mk 6 "pain")] false 1 100)
          ("hello worldly".data)).dedup.length →
      (analyze (DetectorConfig.mk [("hello w".data, KeywordConfig.mk 6 "pain")] false 1 100)
        ("hello worldly".data)).hasDefectionSignal = true) ∧
    ((analyze (DetectorConfig.mk [("hello w".data, KeywordConfig.mk 6 "pain")] false 1 100)
        ("hello worldly".data)).score = 29 →
      (analyze (DetectorConfig.mk [("hello w".data, KeywordConfig.mk 6 "pain")] false 1 100)
        ("hello worldly".data)).hasDefectionSignal = false) :=
  ⟨by decide,
   analyze_hasSignal_iff_thresholds
     (DetectorConfig.mk [("hello w".data, KeywordConfig.mk 6 "pain")] false 1 100)
     ("hello worldly".data) (by decide)⟩

/-- Concrete scenario A of the spec (claim C3). -/
def textA : List Char :=
  "We are switching from CompetitorX, it".data ++ [apos] ++
  "s been buggy and support is terrible, we need a replacement ASAP".data

set_option maxRecDepth 400000 in
/-- C3 counterexample: on scenario A the default lexicon matches only 2
phrases in 2 categories with score 55, so the claimed ≥4 phrases / ≥3
categories / score ≥80 all fail. -/
theorem scenarioA_counterexample :
    ¬(4 ≤ (analyze defaultConfig textA).matchCount.getD 0 ∧
      3 ≤ (analyze defaultConfig textA).categories.length ∧
      80 ≤ (analyze defaultConfig textA).score) := by decide

set_option maxRecDepth 400000 in
/-- C3 amended: scenario A matches exactly the 2 phrases `switching from`
and `buggy`, spanning the 2 categories switching and pain, scores 55, and
is classified as signal-present. -/
theorem scenarioA_actual :
    (analyze defaultConfig textA).keywords =
      ["switching from".data, "buggy".data] ∧
    (analyze defaultConfig textA).matchCount = some 2 ∧
    (analyze defaultConfig textA).categories.length = 2 ∧
    (analyze defaultConfig textA).score = 55 ∧
    (analyze defaultConfig textA).hasDefectionSignal = true := by decide

/-- Concrete input for claim C4: one hot signal plus a budget-regex match. -/
def budgetText : List Char := "urgent need, budget is $9,000".data

/-- C4 counterexample: on `budgetText` the budget regex matches and exactly
one hot signal fires, so the claimed rule (budget bonus added to the hot
count before thresholding) yields `hot`, but `scoreLead` returns `warm` —
the computed `budgetMatch` is never added to the hot count. -/
theorem scoreLead_budget_counterexample :
    budgetMatchExists budgetText = true ∧
    hotCountOf budgetText = 1 ∧
    specThreeTierWithBonus budgetText = "hot" ∧
    (scoreLead budgetText).score = "warm" := by decide

/-- C4 amended: `scoreLead` classifies hot iff at least 2 hot signals match,
warm iff at least 1 hot or at least 2 warm signals match, and cold
otherwise; the budget-pattern regex match is computed but never added to
the hot count, so the classification equals the bonus-free rule
`specThreeTier` on every text. -/
theorem scoreLead_eq_specThreeTier (text : List Char) :
    (scoreLead text).score = specThreeTier text := by
  simp only [scoreLead, specThreeTier, hotCountOf, warmCountOf]
  split_ifs <;> rfl

/-- C5 counterexample: a `null` text argument is not rejected with a
validation error — `analyze` silently returns the baseline result — and a
numeric argument raises a bare `TypeError` from `toLowerCase`, not a
validation error naming the argument. -/
theorem analyzeJS_nonstring_counterexample :
    analyzeJS defaultConfig JSVal.nullV = Except.ok emptyResult ∧
    analyzeJS defaultConfig (JSVal.num 42) =
      Except.error (JSError.typeError "text.toLowerCase is not a function") :=
  ⟨rfl, rfl⟩

/-- C5 amended: `analyze` never validates its argument.  Every string input
returns a well-formed result (score clamped to 100) without throwing; falsy
non-strings (`null`, `undefined`) silently return the baseline result; and
truthy non-strings raise a `TypeError` from `text.toLowerCase`, not a
validation error. -/
theorem analyzeJS_behaviour :
    (∀ s : List Char,
      analyzeJS defaultConfig (JSVal.str s) = Except.ok (analyze defaultConfig s) ∧
      (analyze defaultConfig s).score ≤ 100) ∧
    analyzeJS defaultConfig JSVal.nullV = Except.ok emptyResult ∧
    analyzeJS defaultConfig JSVal.undefinedV = Except.ok emptyResult ∧
    analyzeJS defaultConfig (JSVal.num 0) = Except.ok emptyResult ∧
    analyzeJS defaultConfig JSVal.nanV = Except.ok emptyResult ∧
    analyzeJS defaultConfig (JSVal.boolean false) = Except.ok emptyResult ∧
    analyzeJS defaultConfig (JSVal.num 42) =
      Except.error (JSError.typeError "text.toLowerCase is not a function") ∧
    analyzeJS defaultConfig (JSVal.boolean true) =
      Except.error (JSError.typeError "text.toLowerCase is not a function") := by
  refine ⟨?_, rfl, rfl, rfl, rfl, rfl, rfl, rfl⟩
  intro s
  refine ⟨?_, analyze_score_le_100 _ _⟩
  unfold analyzeJS
  cases s with
  | nil => rfl
  | cons c t =>
      rw [if_neg (by simp [falsy])]

/-- C6: for every lexicon and configuration, analyzing an empty text or a
9-character text (below the 10-character minimum) returns the baseline
no-signal result: no signal, score 0, empty keyword and excerpt lists,
neutral sentiment. -/
theorem analyze_short_baseline (cfg : DetectorConfig) (text : List Char)
    (h : text.length = 0 ∨ text.length = 9) :
    (analyze cfg text).hasDefectionSignal = false ∧
    (analyze cfg text).score = 0 ∧
    (analyze cfg text).keywords = [] ∧
    (analyze cfg text).excerpts = [] ∧
    (analyze cfg text).sentiment = "neutral" := by
  have hb : analyze cfg text = emptyResult :=
    analyze_below_min cfg text (by omega)
  rw [hb]
  exact ⟨rfl, rfl, rfl, rfl, rfl⟩

theorem analyze_short_baseline_witness :
    (("123456789".data).length = 0 ∨ ("123456789".data).length = 9) ∧
    ((analyze defaultConfig ("123456789".data)).hasDefectionSignal = false ∧
     (analyze defaultConfig ("123456789".data)).score = 0 ∧
     (analyze defaultConfig ("123456789".data)).keywords = [] ∧
     (analyze defaultConfig ("123456789".data)).excerpts = [] ∧
     (analyze defaultConfig ("123456789".data)).sentiment = "neutral") :=
  ⟨Or.inr (by decide),
   analyze_short_baseline defaultConfig ("123456789".data) (Or.inr (by decide))⟩

/-- C7: adding one new matching phrase with positive weight to the lexicon
(appended as a fresh object key, all other entries and the text fixed)
never decreases the score returned by `analyze`. -/
theorem analyze_score_mono (lex : List (List Char × KeywordConfig))
    (e : List Char × KeywordConfig) (cs : Bool) (mm cw : Nat) (text : List Char)
    (hnew : e.1 ∉ lex.map Prod.fst) (hw : 1 ≤ e.2.weight)
    (hmatch : entryMatches (DetectorConfig.mk (lex ++ [e]) cs mm cw) text e = true) :
    (analyze (DetectorConfig.mk lex cs mm cw) text).score ≤
      (analyze (DetectorConfig.mk (lex ++ [e]) cs mm cw) text).score := by
  by_cases h : text.length < 10
  · rw [analyze_below_min _ text h, analyze_below_min _ text h]
  · rw [analyze_long _ text h, analyze_long _ text h]
    show calculateScore _ _ _ ≤ calculateScore _ _ _
    rw [calculateScore_eq_formula, calculateScore_eq_formula]
    have hM2 : matchedEntries (DetectorConfig.mk (lex ++ [e]) cs mm cw) text =
        matchedEntries (DetectorConfig.mk lex cs mm cw) text ++ [e] := by
      show (lex ++ [e]).filter
          (entryMatches (DetectorConfig.mk (lex ++ [e]) cs mm cw) text) = _
      rw [List.filter_append]
      congr 1
      simp [List.filter_cons, hmatch]
    rw [hM2]
    simp only [List.map_append, List.sum_append, List.length_append]
    apply scoreFormula_mono
    · simp
    · omega
    · intro c hc
      simp only [List.map_append, List.mem_append]
      exact Or.inl hc

theorem analyze_score_mono_witness :
    (("buggy".data : List Char) ∉
      [("tired of".data, KeywordConfig.mk 4 "pain")].map Prod.fst) ∧
    1 ≤ (KeywordConfig.mk 2 "pain").weight ∧
    entryMatches
      (DetectorConfig.mk
        ([("tired of".data, KeywordConfig.mk 4 "pain")] ++
          [("buggy".data, KeywordConfig.mk 2 "pain")]) false 1 100)
      ("tired of buggy app".data) ("buggy".data, KeywordConfig.mk 2 "pain") = true ∧
    (analyze (DetectorConfig.mk [("tired of".data, KeywordConfig.mk 4 "pain")] false 1 100)
        ("tired of buggy app".data)).score ≤
      (analyze (DetectorConfig.mk
          ([("tired of".data, KeywordConfig.mk 4 "pain")] ++
            [("buggy".data, KeywordConfig.mk 2 "pain")]) false 1 100)
        ("tired of buggy app".data)).score :=
  ⟨by decide, by decide, by decide,
   analyze_score_mono [("tired of".data, KeywordConfig.mk 4 "pain")]
     ("buggy".data, KeywordConfig.mk 2 "pain") false 1 100
     ("tired of buggy app".data) (by decide) (by decide) (by decide)⟩

/-- C8: for every input string, `extractPainPoints` and
`extractDesiredFeatures` return at most 5 entries, contain no duplicate
strings (deduplicated by exact equality after trimming), and preserve the
first-seen order of the trimmed raw matches. -/
theorem extract_dedup_cap (text : List Char) :
    (extractPainPoints text).length ≤ 5 ∧
    (extractPainPoints text).Nodup ∧
    (extractPainPoints text).Sublist (rawPainPoints text) ∧
    (extractDesiredFeatures text).length ≤ 5 ∧
    (extractDesiredFeatures text).Nodup ∧
    (extractDesiredFeatures text).Sublist (rawDesiredFeatures text) := by
  unfold extractPainPoints extractDesiredFeatures jsSetDedup
  refine ⟨?_, ?_, ?_, ?_, ?_, ?_⟩
  · rw [List.length_take]
    exact Nat.min_le_left _ _
  · exact (jsSetDedupAux_nodup _ []).sublist (List.take_sublist 5 _)
  · exact (List.take_sublist 5 _).trans (jsSetDedupAux_sublist _ [])
  · rw [List.length_take]
    exact Nat.min_le_left _ _
  · exact (jsSetDedupAux_nodup _ []).sublist (List.take_sublist 5 _)
  · exact (List.take_sublist 5 _).trans (jsSetDedupAux_sublist _ [])

/-- C9: `detectStage` tests the stage regexes in the fixed priority order
implemented > decided > evaluating > researching, so any text whose
lowercasing contains an implemented-stage phrase with word boundaries —
even if it also contains a researching-stage phrase — classifies as
`implemented`. -/
theorem detectStage_priority (text : List Char)
    (h1 : implementedPats.any (fun p => wbContains (toLowerStr text) p) = true)
    (h2 : researchingPats.any (fun p => wbContains (toLowerStr text) p) = true) :
    detectStage text = "implemented" := by
  unfold detectStage
  simp only [h1, if_true]

theorem detectStage_priority_witness :
    implementedPats.any
      (fun p => wbContains (toLowerStr ("we are researching options but now using acme".data)) p) =
        true ∧
    researchingPats.any
      (fun p => wbContains (toLowerStr ("we are researching options but now using acme".data)) p) =
        true ∧
    detectStage ("we are researching options but now using acme".data) = "implemented" :=
  ⟨by decide, by decide,
   detectStage_priority ("we are researching options but now using acme".data)
     (by decide) (by decide)⟩

/-- C10: with `caseSensitive: true`, the search needle becomes the whole
input text instead of the keyword and `text.indexOf(text)` is always 0, so
for every text of length at least 10 `analyze` reports every lexicon phrase
as matched, each at position 0, whether or not it occurs in the text. -/
theorem analyze_caseSensitive_matches_all (lex : List (List Char × KeywordConfig))
    (mm cw : Nat) (text : List Char) (h : 10 ≤ text.length) :
    (analyze (DetectorConfig.mk lex true mm cw) text).keywords = lex.map Prod.fst ∧
    ∀ ex ∈ (analyze (DetectorConfig.mk lex true mm cw) text).excerpts,
      ex.position = 0 := by
  have h' : ¬ text.length < 10 := by omega
  have hall : ∀ e, entryMatches (DetectorConfig.mk lex true mm cw) text e = true := by
    intro e
    show (jsIndexOf text text).isSome = true
    rw [jsIndexOf_self]
    rfl
  have hM : matchedEntries (DetectorConfig.mk lex true mm cw) text = lex :=
    List.filter_eq_self.mpr (fun a _ => hall a)
  rw [analyze_long _ text h']
  constructor
  · show (matchedEntries (DetectorConfig.mk lex true mm cw) text).map Prod.fst = _
    rw [hM]
  · intro ex hex
    simp only [List.mem_map] at hex
    obtain ⟨e, _, rfl⟩ := hex
    show posOf (DetectorConfig.mk lex true mm cw) text e = 0
    show (jsIndexOf text text).getD 0 = 0
    rw [jsIndexOf_self]
    rfl

theorem analyze_caseSensitive_matches_all_witness :
    10 ≤ ("hello world!".data : List Char).length ∧
    ((analyze (DetectorConfig.mk [("absent phrase".data, KeywordConfig.mk 3 "pain")] true 1 100)
        ("hello world!".data)).keywords =
      [("absent phrase".data, KeywordConfig.mk 3 "pain")].map Prod.fst ∧
    ∀ ex ∈ (analyze (DetectorConfig.mk [("absent phrase".data, KeywordConfig.mk 3 "pain")] true 1 100)
        ("hello world!".data)).excerpts, ex.position = 0) :=
  ⟨by decide,
   analyze_caseSensitive_matches_all [("absent phrase".data, KeywordConfig.mk 3 "pain")]
     1 100 ("hello world!".data) (by decide)⟩
